import Mathlib

/-!
Shallow embedding of the markstruct package (markstruct.go): an engine that
walks a struct via reflection and renders string-bearing fields from Markdown
to HTML in place.  Go reflect.Values are modelled by the inductive `Value`;
the read-only flag that Go reflection propagates into unexported fields (and
which decides `CanSet`) is modelled by an explicit `ro : Bool` parameter
threaded through the traversal: every value the engine visits is addressable
(the walk starts at the pointee of the root pointer), so a value is settable
iff `ro = false`.  The goldmark renderer together with the parse options
(`renderString` / `writeMarkdown` in the source) is modelled as an opaque
function `render : String → Except String String`.  In-place mutation is
modelled by returning the updated value.
-/

namespace markstruct

/-- Errors surfaced by the engine: `invalidType msg` models
`fmt.Errorf("%w: ...", ErrInvalidType)` (the wrapped `ErrInvalidType` with its
message), and `render e` models an error returned by the render adapter,
propagated verbatim. -/
inductive MError where
  | invalidType (msg : String)
  | render (e : String)
deriving DecidableEq, Repr

/-- Model of a Go value as seen through `reflect.Value`, restricted to the
kinds the engine distinguishes: strings, pointers (`none` = nil pointer,
whose `Elem()` is the invalid Value), slices, arrays, maps with string values
(keys modelled as `Nat`; Go iterates them in unspecified order, modelled here
as list order), maps with non-string values (their contents never inspected),
structs (each field carries its `markdown` tag value, its exported flag and
its value), and any other kind (`vother`). -/
inductive Value where
  | vstr (s : String)
  | vptr (p : Option Value)
  | vslice (elems : List Value)
  | varray (elems : List Value)
  | vmapStr (entries : List (Nat × String))
  | vmapOther
  | vstruct (fields : List (String × Bool × Value))
  | vother

/-- Result of one traversal call on a value: the (possibly mutated) value,
the accumulated changed flag, and the error, mirroring Go's
`(bool, error)` return plus the in-place mutation. -/
structure CResult where
  val : Value
  changed : Bool
  err : Option MError

/-- Result of `process` (the entry points): the possibly mutated root
argument, the changed flag and the error. -/
structure PResult where
  val : Option Value
  changed : Bool
  err : Option MError

/-- The fieldProcessor of the source: the two policy booleans plus the bound
render adapter (converter.markdown.Convert with the call's parse options). -/
structure FieldProcessor where
  ConvertAllFields : Bool
  ValidateOnly : Bool
  render : String → Except String String

/-- Model of strings.ToLower as a character map over the string's
characters.  Lean's Char.toLower lowercases the ASCII range; for membership
in the engine's enabled set (all-ASCII words) this agrees with Go's Unicode
lowercasing, since no non-ASCII uppercase character lowercases to any
character of "on", "yes", "1", "y" or "enable". -/
def strToLower (s : String) : String :=
  ⟨s.data.map Char.toLower⟩

/-- isMarkdownTagEnabled: the tag value, lowercased, must be one of
"on", "yes", "1", "y", "enable" (the Go switch). -/
def isMarkdownTagEnabled (tagval : String) : Bool :=
  let t := strToLower tagval
  t == "on" || t == "yes" || t == "1" || t == "y" || t == "enable"

/-- isStruct: true for a struct, or for a pointer whose pointee is valid
(non-nil) and a struct. -/
def isStruct : Value → Bool
  | .vstruct _ => true
  | .vptr (some (.vstruct _)) => true
  | _ => false

/-- convertString on a string value reached with read-only flag `ro`
(`isValidSettable` fails iff `ro`): render, report `value != rendered`,
and write back unless ValidateOnly.  Returns (new value, changed, err). -/
def convertString (f : FieldProcessor) (ro : Bool) (s : String) :
    String × Bool × Option MError :=
  if ro then (s, false, none)
  else
    match f.render s with
    | .error e => (s, false, some (.render e))
    | .ok rendered =>
      (if f.ValidateOnly then s else rendered, s != rendered, none)

/-- Loop body of convertMap over the entries of a string-valued map.  Note
the source's `mdstr, err := f.renderString(rawstr)` declares a fresh `err`
shadowing the function-level one, so the render error only breaks the loop
and the function always returns a nil error: the pair returned here is
(updated entries, changed), with no error component. -/
def convertMapLoop (f : FieldProcessor) :
    List (Nat × String) → List (Nat × String) × Bool
  | [] => ([], false)
  | (k, rawstr) :: rest =>
    match f.render rawstr with
    | .error _ => ((k, rawstr) :: rest, false)
    | .ok mdstr =>
      let entry := if rawstr != mdstr && !f.ValidateOnly then (k, mdstr)
                   else (k, rawstr)
      let t := convertMapLoop f rest
      (entry :: t.1, (rawstr != mdstr) || t.2)

mutual

/-- The convert dispatch of the source.  A nil pointer's `Elem()` is the
invalid Value, which falls through the switch to `(false, nil)`; a non-nil
pointer recurses into the pointee.  Slice and Array kinds both go to
convertSlice, which rejects the Array kind with ErrInvalidType; maps go to
convertMap (non-string-valued maps and unsettable maps are no-ops); structs
go to convertStruct; strings to convertString; every other kind is a no-op. -/
def convert (f : FieldProcessor) (ro : Bool) : Value → CResult
  | .vptr none => ⟨.vptr none, false, none⟩
  | .vptr (some w) =>
    let r := convert f ro w
    ⟨.vptr (some r.val), r.changed, r.err⟩
  | .vslice es =>
    let r := convertSliceLoop f ro es
    ⟨.vslice r.1, r.2, none⟩
  | .varray es => ⟨.varray es, false, some (.invalidType "expect string slice")⟩
  | .vmapStr entries =>
    if ro then ⟨.vmapStr entries, false, none⟩
    else
      let r := convertMapLoop f entries
      ⟨.vmapStr r.1, r.2, none⟩
  | .vmapOther => ⟨.vmapOther, false, none⟩
  | .vstruct fields =>
    let r := convertStructLoop f ro fields
    ⟨.vstruct r.1, r.2.1, r.2.2⟩
  | .vstr s =>
    let r := convertString f ro s
    ⟨.vstr r.1, r.2.1, r.2.2⟩
  | .vother => ⟨.vother, false, none⟩
termination_by structural v => v

/-- Loop body of convertSlice over the elements.  As in convertMapLoop, the
source's `fchanged, err := f.convert(entry)` shadows the function-level
`err`, so an element error breaks the loop (later elements untouched) but
the function returns a nil error; the changed flags are OR-accumulated up to
and including the breaking element. -/
def convertSliceLoop (f : FieldProcessor) (ro : Bool) :
    List Value → List Value × Bool
  | [] => ([], false)
  | e :: rest =>
    let r := convert f ro e
    match r.err with
    | some _ => (r.val :: rest, r.changed)
    | none =>
      let t := convertSliceLoop f ro rest
      (r.val :: t.1, r.changed || t.2)
termination_by structural l => l

/-- Loop body of convertStruct over the fields.  A field that is not a
struct (per isStruct) is skipped unless ConvertAllFields or its tag is
enabled; otherwise the engine recurses into the field (an unexported field
makes the subtree read-only).  Here the source uses plain assignment
`fchanged, err = f.convert(field)`, so an error breaks the loop AND is
returned, together with the OR of the changed flags up to and including the
erroring field. -/
def convertStructLoop (f : FieldProcessor) (ro : Bool) :
    List (String × Bool × Value) →
      List (String × Bool × Value) × Bool × Option MError
  | [] => ([], false, none)
  | (tag, exported, v0) :: rest =>
    if !(isStruct v0) && !f.ConvertAllFields && !(isMarkdownTagEnabled tag) then
      let t := convertStructLoop f ro rest
      ((tag, exported, v0) :: t.1, t.2.1, t.2.2)
    else
      let r := convert f (ro || !exported) v0
      match r.err with
      | some e => ((tag, exported, r.val) :: rest, r.changed, some e)
      | none =>
        let t := convertStructLoop f ro rest
        ((tag, exported, r.val) :: t.1, r.changed || t.2.1, t.2.2)
termination_by structural l => l

end

/-- convertSlice: only the Slice kind is accepted; any other kind (the Array
kind included, which convert routes here) gets ErrInvalidType. -/
def convertSlice (f : FieldProcessor) (ro : Bool) (v : Value) : CResult :=
  match v with
  | .vslice es =>
    let r := convertSliceLoop f ro es
    ⟨.vslice r.1, r.2, none⟩
  | _ => ⟨v, false, some (.invalidType "expect string slice")⟩

/-- convertMap: non-map kinds get ErrInvalidType; a map with non-string
values is a no-op; an unsettable map (CanSet false, i.e. `ro`) is a no-op;
otherwise each value is rendered and written back under the same key unless
ValidateOnly (error swallowed by the shadowed `err`, see convertMapLoop). -/
def convertMap (f : FieldProcessor) (ro : Bool) (v : Value) : CResult :=
  match v with
  | .vmapStr entries =>
    if ro then ⟨.vmapStr entries, false, none⟩
    else
      let r := convertMapLoop f entries
      ⟨.vmapStr r.1, r.2, none⟩
  | .vmapOther => ⟨.vmapOther, false, none⟩
  | _ => ⟨v, false, some (.invalidType "expect map")⟩

/-- convertStruct: non-struct kinds get ErrInvalidType; otherwise the field
loop runs (see convertStructLoop). -/
def convertStruct (f : FieldProcessor) (ro : Bool) (v : Value) : CResult :=
  match v with
  | .vstruct fields =>
    let r := convertStructLoop f ro fields
    ⟨.vstruct r.1, r.2.1, r.2.2⟩
  | _ => ⟨v, false, some (.invalidType "expect struct")⟩

/-- process: `none` models the untyped nil interface (invalid Value →
`(false, nil)`); a non-pointer argument gets ErrInvalidType; a nil pointer's
Elem() is invalid, failing isValidSettable → `(false, nil)`; a non-nil
pointer's pointee is addressable and not read-only, and is handed to
convertStruct (which rejects non-struct pointees with ErrInvalidType). -/
def process (render : String → Except String String)
    (allFields validateOnly : Bool) : Option Value → PResult
  | none => ⟨none, false, none⟩
  | some v =>
    match v with
    | .vptr none => ⟨some (.vptr none), false, none⟩
    | .vptr (some elem) =>
      let r := convertStruct ⟨allFields, validateOnly, render⟩ false elem
      ⟨some (.vptr (some r.val)), r.changed, r.err⟩
    | _ => ⟨some v, false, some (.invalidType "expect pointer to struct")⟩

/-- ConvertFields: tagged fields only, mutating. -/
def ConvertFields (render : String → Except String String)
    (s : Option Value) : PResult :=
  process render false false s

/-- ConvertAllFields: all fields, mutating. -/
def ConvertAllFields (render : String → Except String String)
    (s : Option Value) : PResult :=
  process render true false s

/-- ValidateFields: tagged fields only, dry run. -/
def ValidateFields (render : String → Except String String)
    (s : Option Value) : PResult :=
  process render false true s

/-- ValidateAllFields: all fields, dry run. -/
def ValidateAllFields (render : String → Except String String)
    (s : Option Value) : PResult :=
  process render true true s

/-- Kind test used to state the entry contract: is the dynamic kind of the
argument a pointer. -/
def Value.isPtr : Value → Bool
  | .vptr _ => true
  | _ => false

/-- A chain of `n` non-nil pointers around a value. -/
def wrapPtr : Nat → Value → Value
  | 0, v => v
  | n + 1, v => .vptr (some (wrapPtr n v))

/-- A concrete render adapter for the closed runs below: wraps text in a
paragraph, and fails with "BOOM" on the input "bad" (modelling a
goldmark.Markdown whose Convert returns an error for that source). -/
def demoRender : String → Except String String :=
  fun s => if s == "bad" then .error "BOOM" else .ok ("<p>" ++ s ++ "</p>")

/-! ## Helper lemmas -/

/-- Helper: in validate-only mode the map loop leaves the entries unchanged. -/
theorem convertMapLoop_val_validate (f : FieldProcessor)
    (hf : f.ValidateOnly = true) :
    (l : List (Nat × String)) → (convertMapLoop f l).1 = l
  | [] => by simp [convertMapLoop]
  | (k, raw) :: rest => by
    have ih := convertMapLoop_val_validate f hf rest
    simp only [convertMapLoop, hf]
    cases f.render raw with
    | error e => rfl
    | ok md => simp [ih]

mutual

/-- Helper: in validate-only mode convert returns its argument unchanged. -/
theorem convert_val_validate (f : FieldProcessor) (hf : f.ValidateOnly = true)
    (ro : Bool) : (v : Value) → (convert f ro v).val = v
  | .vstr s => by
    simp only [convert, convertString, hf]
    split
    · rfl
    · cases f.render s <;> simp
  | .vptr none => by simp [convert]
  | .vptr (some w) => by
    have ih := convert_val_validate f hf ro w
    simp [convert, ih]
  | .vslice es => by
    have ih := convertSliceLoop_val_validate f hf ro es
    simp [convert, ih]
  | .varray es => by simp [convert]
  | .vmapStr l => by
    have ih := convertMapLoop_val_validate f hf l
    simp only [convert]
    split <;> simp [ih]
  | .vmapOther => by simp [convert]
  | .vstruct fs => by
    have ih := convertStructLoop_val_validate f hf ro fs
    simp [convert, ih]
  | .vother => by simp [convert]

/-- Helper: in validate-only mode the slice loop leaves the elements
unchanged. -/
theorem convertSliceLoop_val_validate (f : FieldProcessor)
    (hf : f.ValidateOnly = true) (ro : Bool) :
    (l : List Value) → (convertSliceLoop f ro l).1 = l
  | [] => by simp [convertSliceLoop]
  | e :: rest => by
    have ihe := convert_val_validate f hf ro e
    have ihr := convertSliceLoop_val_validate f hf ro rest
    simp only [convertSliceLoop]
    split <;> simp [ihe, ihr]

/-- Helper: in validate-only mode the struct field loop leaves the fields
unchanged. -/
theorem convertStructLoop_val_validate (f : FieldProcessor)
    (hf : f.ValidateOnly = true) (ro : Bool) :
    (l : List (String × Bool × Value)) → (convertStructLoop f ro l).1 = l
  | [] => by simp [convertStructLoop]
  | (tag, ex, v0) :: rest => by
    have ihv := convert_val_validate f hf (ro || !ex) v0
    have ihr := convertStructLoop_val_validate f hf ro rest
    simp only [convertStructLoop]
    split
    · simp [ihr]
    · split <;> simp [ihv, ihr]

end

/-- Helper: in validate-only mode convertStruct returns its argument
unchanged. -/
theorem convertStruct_val_validate (f : FieldProcessor)
    (hf : f.ValidateOnly = true) (ro : Bool) (v : Value) :
    (convertStruct f ro v).val = v := by
  cases v <;> simp [convertStruct]
  case vstruct fs => exact convertStructLoop_val_validate f hf ro fs

/-- Helper: with validateOnly set, process returns its argument unchanged. -/
theorem process_val_validate (rend : String → Except String String)
    (aF : Bool) (s : Option Value) : (process rend aF true s).val = s := by
  cases s with
  | none => rfl
  | some v =>
    cases v <;> simp [process]
    case vptr p =>
      cases p with
      | none => simp
      | some e => simp [convertStruct_val_validate ⟨aF, true, rend⟩ rfl false e]

/-- Helper: the changed flag computed by the map loop does not depend on the
ValidateOnly flag. -/
theorem convertMapLoop_changed_mode (aF b1 b2 : Bool)
    (r : String → Except String String) :
    (l : List (Nat × String)) →
      (convertMapLoop ⟨aF, b1, r⟩ l).2 = (convertMapLoop ⟨aF, b2, r⟩ l).2
  | [] => by simp [convertMapLoop]
  | (k, raw) :: rest => by
    have ih := convertMapLoop_changed_mode aF b1 b2 r rest
    simp only [convertMapLoop]
    cases r raw with
    | error e => rfl
    | ok md => simp [ih]

mutual

/-- Helper: the changed flag and the error computed by convert do not depend
on the ValidateOnly flag. -/
theorem convert_mode (aF b1 b2 : Bool) (r : String → Except String String)
    (ro : Bool) : (v : Value) →
      (convert ⟨aF, b1, r⟩ ro v).changed = (convert ⟨aF, b2, r⟩ ro v).changed
      ∧ (convert ⟨aF, b1, r⟩ ro v).err = (convert ⟨aF, b2, r⟩ ro v).err
  | .vstr s => by
    simp only [convert, convertString]
    split
    · exact ⟨rfl, rfl⟩
    · cases r s <;> simp
  | .vptr none => ⟨rfl, rfl⟩
  | .vptr (some w) => by
    have ih := convert_mode aF b1 b2 r ro w
    simp [convert, ih.1, ih.2]
  | .vslice es => by
    have ih := convertSliceLoop_mode aF b1 b2 r ro es
    simp [convert, ih]
  | .varray es => ⟨rfl, rfl⟩
  | .vmapStr l => by
    have ih := convertMapLoop_changed_mode aF b1 b2 r l
    simp only [convert]
    split <;> simp [ih]
  | .vmapOther => ⟨rfl, rfl⟩
  | .vstruct fs => by
    have ih := convertStructLoop_mode aF b1 b2 r ro fs
    simp [convert, ih.1, ih.2]
  | .vother => ⟨rfl, rfl⟩

/-- Helper: the changed flag computed by the slice loop does not depend on
the ValidateOnly flag. -/
theorem convertSliceLoop_mode (aF b1 b2 : Bool)
    (r : String → Except String String) (ro : Bool) :
    (l : List Value) →
      (convertSliceLoop ⟨aF, b1, r⟩ ro l).2 = (convertSliceLoop ⟨aF, b2, r⟩ ro l).2
  | [] => rfl
  | e :: rest => by
    have ihe := convert_mode aF b1 b2 r ro e
    have ihr := convertSliceLoop_mode aF b1 b2 r ro rest
    simp only [convertSliceLoop]
    cases h2 : (convert ⟨aF, b2, r⟩ ro e).err with
    | none =>
      have h1 : (convert ⟨aF, b1, r⟩ ro e).err = none := ihe.2.trans h2
      simp [h1, h2, ihe.1, ihr]
    | some er =>
      have h1 : (convert ⟨aF, b1, r⟩ ro e).err = some er := ihe.2.trans h2
      simp [h1, h2, ihe.1]

/-- Helper: the changed flag and the error computed by the struct field loop
do not depend on the ValidateOnly flag. -/
theorem convertStructLoop_mode (aF b1 b2 : Bool)
    (r : String → Except String String) (ro : Bool) :
    (l : List (String × Bool × Value)) →
      (convertStructLoop ⟨aF, b1, r⟩ ro l).2.1
        = (convertStructLoop ⟨aF, b2, r⟩ ro l).2.1
      ∧ (convertStructLoop ⟨aF, b1, r⟩ ro l).2.2
        = (convertStructLoop ⟨aF, b2, r⟩ ro l).2.2
  | [] => ⟨rfl, rfl⟩
  | (tag, ex, v0) :: rest => by
    have ihv := convert_mode aF b1 b2 r (ro || !ex) v0
    have ihr := convertStructLoop_mode aF b1 b2 r ro rest
    simp only [convertStructLoop]
    split
    · simp [ihr.1, ihr.2]
    · cases h2 : (convert ⟨aF, b2, r⟩ (ro || !ex) v0).err with
      | none =>
        have h1 : (convert ⟨aF, b1, r⟩ (ro || !ex) v0).err = none := ihv.2.trans h2
        simp [h1, h2, ihv.1, ihr.1, ihr.2]
      | some er =>
        have h1 : (convert ⟨aF, b1, r⟩ (ro || !ex) v0).err = some er := ihv.2.trans h2
        simp [h1, h2, ihv.1]

end

/-- Helper: convertStruct's changed flag and error do not depend on the
ValidateOnly flag. -/
theorem convertStruct_mode (aF b1 b2 : Bool) (r : String → Except String String)
    (ro : Bool) (v : Value) :
    (convertStruct ⟨aF, b1, r⟩ ro v).changed = (convertStruct ⟨aF, b2, r⟩ ro v).changed
    ∧ (convertStruct ⟨aF, b1, r⟩ ro v).err = (convertStruct ⟨aF, b2, r⟩ ro v).err := by
  cases v <;> simp [convertStruct]
  case vstruct fs =>
    have ih := convertStructLoop_mode aF b1 b2 r ro fs
    exact ⟨ih.1, ih.2⟩

/-- Helper: the changed flag and the error returned by process do not depend
on the validateOnly argument. -/
theorem process_mode (rend : String → Except String String) (aF b1 b2 : Bool)
    (s : Option Value) :
    (process rend aF b1 s).changed = (process rend aF b2 s).changed
    ∧ (process rend aF b1 s).err = (process rend aF b2 s).err := by
  cases s with
  | none => exact ⟨rfl, rfl⟩
  | some v =>
    cases v <;> simp [process]
    case vptr p =>
      cases p with
      | none => simp
      | some e =>
        have ih := convertStruct_mode aF b1 b2 rend false e
        simp [ih.1, ih.2]

/-- Helper: the slice loop is the identity on a list whose elements are all
of an unsupported kind. -/
theorem convertSliceLoop_vother (f : FieldProcessor) (ro : Bool) :
    (l : List Value) → (∀ e ∈ l, e = Value.vother) →
      convertSliceLoop f ro l = (l, false)
  | [], _ => by simp [convertSliceLoop]
  | e :: rest, h => by
    have he : e = Value.vother := h e (by simp)
    have ihr := convertSliceLoop_vother f ro rest
      (fun x hx => h x (by simp [hx]))
    subst he
    simp [convertSliceLoop, convert, ihr]

/-! ## Claims -/

/-- C1 (counterexample): on a struct with two tagged string fields where the
first field's text changes under rendering and the renderer then fails on
the second field, ConvertFields returns the error together with
changed = true — not the `(false, err)` the claim requires. -/
theorem C1_counterexample :
    (ConvertFields demoRender (some (.vptr (some (.vstruct
      [("on", true, .vstr "a"), ("on", true, .vstr "bad")]))))).err
      = some (.render "BOOM")
    ∧ (ConvertFields demoRender (some (.vptr (some (.vstruct
      [("on", true, .vstr "a"), ("on", true, .vstr "bad")]))))).changed
      = true :=
  ⟨rfl, rfl⟩

/-- C1 (amended): when a render error occurs on a field of the root struct,
the entry point returns that error together with the accumulated changed
flag — in particular changed = true whenever an earlier sibling field was
already modified before the error, not false. -/
theorem C1_amended_theorem (rend : String → Except String String)
    (s1 t1 s2 e : String) (h1 : rend s1 = .ok t1) (hne : (s1 == t1) = false)
    (h2 : rend s2 = .error e) :
    (ConvertFields rend (some (.vptr (some (.vstruct
      [("on", true, .vstr s1), ("on", true, .vstr s2)]))))).changed = true
    ∧ (ConvertFields rend (some (.vptr (some (.vstruct
      [("on", true, .vstr s1), ("on", true, .vstr s2)]))))).err
      = some (.render e) := by
  have htag : isMarkdownTagEnabled "on" = true := rfl
  constructor <;>
    simp [ConvertFields, process, convertStruct, convertStructLoop, convert,
      convertString, isStruct, htag, h1, h2, bne, hne]

/-- C1 (witness): the amended statement at a concrete renderer and input. -/
theorem C1_witness :
    (demoRender "a" = .ok "<p>a</p>" ∧ ("a" == "<p>a</p>") = false
      ∧ demoRender "bad" = .error "BOOM")
    ∧ ((ConvertFields demoRender (some (.vptr (some (.vstruct
        [("on", true, .vstr "a"), ("on", true, .vstr "bad")]))))).changed = true
      ∧ (ConvertFields demoRender (some (.vptr (some (.vstruct
        [("on", true, .vstr "a"), ("on", true, .vstr "bad")]))))).err
        = some (.render "BOOM")) :=
  ⟨⟨rfl, rfl, rfl⟩,
    C1_amended_theorem demoRender "a" "<p>a</p>" "bad" "BOOM" rfl rfl rfl⟩

/-- C2 (code evaluation at the failing input): a render error on a slice
element or on a map value stops the iteration (later elements/values stay
unrendered) but the error is NOT returned: the entry point reports a nil
error, because the loops' `fchanged, err := ...` / `mdstr, err := ...`
declare a fresh `err` that shadows the one returned by the function. -/
theorem C2_error_swallowed :
    (ConvertFields demoRender (some (.vptr (some (.vstruct
        [("on", true, .vslice [.vstr "a", .vstr "bad", .vstr "c"])]))))).err
      = none
    ∧ (ConvertFields demoRender (some (.vptr (some (.vstruct
        [("on", true, .vslice [.vstr "a", .vstr "bad", .vstr "c"])]))))).changed
      = true
    ∧ (ConvertFields demoRender (some (.vptr (some (.vstruct
        [("on", true, .vslice [.vstr "a", .vstr "bad", .vstr "c"])]))))).val
      = some (.vptr (some (.vstruct
        [("on", true,
          .vslice [.vstr "<p>a</p>", .vstr "bad", .vstr "c"])])))
    ∧ (ConvertFields demoRender (some (.vptr (some (.vstruct
        [("on", true, .vmapStr [(1, "a"), (2, "bad"), (3, "c")])]))))).err
      = none
    ∧ (ConvertFields demoRender (some (.vptr (some (.vstruct
        [("on", true, .vmapStr [(1, "a"), (2, "bad"), (3, "c")])]))))).val
      = some (.vptr (some (.vstruct
        [("on", true,
          .vmapStr [(1, "<p>a</p>"), (2, "bad"), (3, "c")])]))) :=
  ⟨rfl, rfl, rfl, rfl, rfl⟩

/-- C3 (counterexample): an array field inside a struct is dispatched to
convertSlice during nested traversal, which rejects the Array kind with
ErrInvalidType — so a mistyped-root call is not the only way to get
InvalidType, and an array field is not a silent no-op. -/
theorem C3_counterexample :
    (ConvertAllFields demoRender (some (.vptr (some (.vstruct
      [("", true, .varray [.vstr "x"])]))))).err
      = some (.invalidType "expect string slice") :=
  rfl

/-- C3 (amended): during nested dispatch, a mapping with non-string values,
an unsettable string field, and a sequence of non-string elements are silent
no-ops `(false, nil)`; an array field, however, is routed to the slice
handler and yields ErrInvalidType. -/
theorem C3_amended_theorem (f : FieldProcessor) (ro : Bool) (s : String)
    (l : List Value) (hl : ∀ e ∈ l, e = Value.vother) (es : List Value) :
    convert f ro .vmapOther = ⟨.vmapOther, false, none⟩
    ∧ convert f true (.vstr s) = ⟨.vstr s, false, none⟩
    ∧ convert f ro (.vslice l) = ⟨.vslice l, false, none⟩
    ∧ (convert f ro (.varray es)).err
        = some (.invalidType "expect string slice") := by
  refine ⟨by simp [convert], by simp [convert, convertString], ?_, by simp [convert]⟩
  simp [convert, convertSliceLoop_vother f ro l hl]

/-- C3 (witness): the amended statement at concrete inputs. -/
theorem C3_witness :
    (∀ e ∈ [Value.vother], e = Value.vother)
    ∧ (convert ⟨false, false, demoRender⟩ false .vmapOther
        = ⟨.vmapOther, false, none⟩
      ∧ convert ⟨false, false, demoRender⟩ true (.vstr "x")
        = ⟨.vstr "x", false, none⟩
      ∧ convert ⟨false, false, demoRender⟩ false (.vslice [Value.vother])
        = ⟨.vslice [Value.vother], false, none⟩
      ∧ (convert ⟨false, false, demoRender⟩ false (.varray [])).err
        = some (.invalidType "expect string slice")) :=
  ⟨fun e he => by simpa using he,
    C3_amended_theorem ⟨false, false, demoRender⟩ false "x" [Value.vother]
      (fun e he => by simpa using he) []⟩

/-- C4: the entry contract of process — a nil interface argument and a typed
nil pointer both give `(false, nil)`; any argument whose kind is not a
pointer gives `(false, ErrInvalidType)`, for every policy. -/
theorem C4_entry_contract (rend : String → Except String String)
    (aF vO : Bool) (v : Value) (hv : v.isPtr = false) :
    process rend aF vO none = ⟨none, false, none⟩
    ∧ process rend aF vO (some (.vptr none)) = ⟨some (.vptr none), false, none⟩
    ∧ process rend aF vO (some v)
        = ⟨some v, false, some (.invalidType "expect pointer to struct")⟩ := by
  refine ⟨rfl, rfl, ?_⟩
  cases v <;> simp_all [process, Value.isPtr]

/-- C4 (witness): the entry contract at a concrete non-pointer input. -/
theorem C4_witness :
    Value.isPtr (.vstr "x") = false
    ∧ process demoRender false false (some (.vstr "x"))
        = ⟨some (.vstr "x"), false,
            some (.invalidType "expect pointer to struct")⟩ :=
  ⟨rfl, (C4_entry_contract demoRender false false (.vstr "x") rfl).2.2⟩

/-- C5: validate-only calls never mutate the input: both ValidateFields and
ValidateAllFields return the argument value unchanged, at all nesting
depths, for every render adapter. -/
theorem C5_validate_no_mutation (rend : String → Except String String)
    (s : Option Value) :
    (ValidateFields rend s).val = s ∧ (ValidateAllFields rend s).val = s :=
  ⟨process_val_validate rend false s, process_val_validate rend true s⟩

/-- C6: a validate-only call returns exactly the (changed, error) pair the
corresponding convert call returns on an identical copy of the input, for
both policies. -/
theorem C6_validate_convert_agree (rend : String → Except String String)
    (s : Option Value) :
    ((ValidateFields rend s).changed = (ConvertFields rend s).changed
      ∧ (ValidateFields rend s).err = (ConvertFields rend s).err)
    ∧ ((ValidateAllFields rend s).changed = (ConvertAllFields rend s).changed
      ∧ (ValidateAllFields rend s).err = (ConvertAllFields rend s).err) :=
  ⟨process_mode rend false true false s, process_mode rend true true false s⟩

/-- C7: a field that is a struct or a non-nil pointer to a struct is always
recursed into by the struct field loop, for every tag value and policy (the
new field value is the result of converting it); when that recursion
succeeds the changed flag accumulates its result; and a nil pointer is a
no-op for convert: `(false, nil)` with the value unchanged. -/
theorem C7_struct_descent (f : FieldProcessor) (ro : Bool) (tag : String)
    (ex : Bool) (v0 : Value) (rest : List (String × Bool × Value))
    (hs : isStruct v0 = true) :
    ((convertStructLoop f ro ((tag, ex, v0) :: rest)).1.head?
      = some (tag, ex, (convert f (ro || !ex) v0).val))
    ∧ ((convert f (ro || !ex) v0).err = none →
        (convertStructLoop f ro ((tag, ex, v0) :: rest)).2.1
          = ((convert f (ro || !ex) v0).changed
              || (convertStructLoop f ro rest).2.1))
    ∧ (∀ (g : FieldProcessor) (ro' : Bool),
        convert g ro' (.vptr none) = ⟨.vptr none, false, none⟩) := by
  refine ⟨?_, ?_, fun g ro' => by simp [convert]⟩
  · simp only [convertStructLoop, hs]
    cases herr : (convert f (ro || !ex) v0).err <;> simp [herr]
  · intro h
    simp only [convertStructLoop, hs]
    simp [h]

/-- C7 (witness): a nested struct field with an absent tag is still recursed
into. -/
theorem C7_witness :
    isStruct (.vstruct []) = true
    ∧ (convertStructLoop ⟨false, false, demoRender⟩ false
        [("", true, .vstruct [])]).1.head?
      = some ("", true,
          (convert ⟨false, false, demoRender⟩ (false || !true) (.vstruct [])).val) :=
  ⟨rfl,
    (C7_struct_descent ⟨false, false, demoRender⟩ false "" true (.vstruct [])
      [] rfl).1⟩

/-- C8: a settable scalar string field (read-only flag off) is rendered and
reports changed = (raw != rendered) in both modes, writing the rendered text
back only when not in validate-only mode; an unsettable string field
(read-only flag on) is the silent no-op `(false, nil)`. -/
theorem C8_string_leaf (f : FieldProcessor) (s rendered : String)
    (h : f.render s = .ok rendered) :
    convert f false (.vstr s)
      = ⟨.vstr (if f.ValidateOnly then s else rendered), s != rendered, none⟩
    ∧ convert f true (.vstr s) = ⟨.vstr s, false, none⟩ := by
  constructor
  · simp [convert, convertString, h]
  · simp [convert, convertString]

/-- C8 (witness): the string leaf behaviour at a concrete renderer. -/
theorem C8_witness :
    demoRender "a" = .ok "<p>a</p>"
    ∧ (convert ⟨false, false, demoRender⟩ false (.vstr "a")
        = ⟨.vstr (if (false : Bool) then "a" else "<p>a</p>"),
            "a" != "<p>a</p>", none⟩
      ∧ convert ⟨false, false, demoRender⟩ true (.vstr "a")
        = ⟨.vstr "a", false, none⟩) :=
  ⟨rfl, C8_string_leaf ⟨false, false, demoRender⟩ "a" "<p>a</p>" rfl⟩

/-- C9: a field annotation enables a field iff its lowercase form is one of
"on", "yes", "1", "y", "enable"; and under the tagged-only policy a
non-struct field with a disabled annotation is skipped entirely by the
struct field loop (left in place, contributing nothing). -/
theorem C9_tag_resolution (t : String) (f : FieldProcessor) (ro : Bool)
    (tag : String) (ex : Bool) (v0 : Value)
    (rest : List (String × Bool × Value))
    (hA : f.ConvertAllFields = false) (hS : isStruct v0 = false)
    (hT : isMarkdownTagEnabled tag = false) :
    (isMarkdownTagEnabled t = true ↔
      (strToLower t = "on" ∨ strToLower t = "yes" ∨ strToLower t = "1"
        ∨ strToLower t = "y" ∨ strToLower t = "enable"))
    ∧ convertStructLoop f ro ((tag, ex, v0) :: rest)
        = ((tag, ex, v0) :: (convertStructLoop f ro rest).1,
            (convertStructLoop f ro rest).2.1,
            (convertStructLoop f ro rest).2.2) := by
  constructor
  · simp [isMarkdownTagEnabled, or_assoc]
  · simp [convertStructLoop, hA, hS, hT]

/-- C9 (witness): the annotation resolution and skipping at concrete
values. -/
theorem C9_witness :
    ((⟨false, false, demoRender⟩ : FieldProcessor).ConvertAllFields = false
      ∧ isStruct (.vstr "v") = false
      ∧ isMarkdownTagEnabled "off" = false)
    ∧ ((isMarkdownTagEnabled "YES" = true ↔
        (strToLower "YES" = "on" ∨ strToLower "YES" = "yes"
          ∨ strToLower "YES" = "1" ∨ strToLower "YES" = "y"
          ∨ strToLower "YES" = "enable"))
      ∧ convertStructLoop ⟨false, false, demoRender⟩ false
          [("off", true, .vstr "v")]
        = (("off", true, .vstr "v")
              :: (convertStructLoop ⟨false, false, demoRender⟩ false []).1,
            (convertStructLoop ⟨false, false, demoRender⟩ false []).2.1,
            (convertStructLoop ⟨false, false, demoRender⟩ false []).2.2)) :=
  ⟨⟨rfl, rfl, rfl⟩,
    C9_tag_resolution "YES" ⟨false, false, demoRender⟩ false "off" true
      (.vstr "v") [] rfl rfl rfl⟩

/-- C10: convert dereferences chains of non-nil pointers of any length: the
result on `wrapPtr n v` is the result on `v`, with the mutated value
re-wrapped in the same chain and the same changed flag and error. -/
theorem C10_deep_deref (f : FieldProcessor) (ro : Bool) (n : Nat) (v : Value) :
    convert f ro (wrapPtr n v)
      = ⟨wrapPtr n (convert f ro v).val, (convert f ro v).changed,
          (convert f ro v).err⟩ := by
  induction n with
  | zero => rfl
  | succ n ih => simp [wrapPtr, convert, ih]

end markstruct
